import Mathlib

/-!
Verification of the Autoscraper artifact repository and validation sandbox.

Shallow embedding of:
* `src/shared/storage.py` (`StorageManager.save_content`, dual-tier policy),
* `src/shared/scraper_saver.py` (`domain_to_filename`, `save_scraper`,
  `update_scraper_validation`),
* `src/scraper_repository/__init__.py` (`get_scraper`, `get_scraper_for_url`,
  `list_scrapers`, `get_scraper_pipeline`, `has_scraper_pipeline`,
  `list_scraper_pipelines`),
* `src/shared/tools.py` (`execute_code`: self-invocation stripping, wrapping,
  and verdict classification).

Storage contents are modelled at the object level: a stored text is either
`Content.raw s` (text that does not parse as a JSON object; `raw ""` models an
empty file) or `Content.obj o` (text that `json.loads` parses to a JSON object
`o`; `json.dumps` of an object is a nonempty string and `loads ∘ dumps` is the
identity on the association list, Python dicts preserving insertion order).
The repository-level functions are modelled over the storage tier in its
local-only configuration (no GCS bucket), where `read`/`exists`/`list` are a
single path-to-content map; `StorageManager.save_content` itself is modelled
separately with both tiers for the storage-tier claim.
-/

namespace Autoscraper

/-! ## Generic association-list primitives (model of dict / keyed file store) -/

/-- Look up the first binding of key `k`. Models Python dict indexing /
file-path lookup. -/
def lookupKey {α : Type} : List (String × α) → String → Option α
  | [], _ => none
  | (k', v) :: rest, k => if k' = k then some v else lookupKey rest k

/-- Replace the binding of `k` in place if present (keeping its position, as a
Python dict update does), else append it. -/
def setKey {α : Type} : List (String × α) → String → α → List (String × α)
  | [], k, v => [(k, v)]
  | (k', v') :: rest, k, v =>
    if k' = k then (k, v) :: rest else (k', v') :: setKey rest k v

/-! ## JSON values and objects -/

/-- JSON values as they occur in this repository's metadata objects. -/
inductive JVal where
  | jstr : String → JVal
  | jarr : List String → JVal
  | jobj : List (String × String) → JVal
deriving DecidableEq, Repr

/-- A JSON object: an association list of fields, in insertion order. -/
abbrev JObj := List (String × JVal)

/-- Stored text, at the object level: `raw s` is text that does not parse as a
JSON object (`raw ""` models an empty file), `obj o` is text that `json.loads`
parses to the object `o`. -/
inductive Content where
  | raw : String → Content
  | obj : JObj → Content
deriving DecidableEq, Repr

/-- The local storage tier's state: logical path to stored content. -/
abbrev Store := List (String × Content)

/-- Models `storage.read_content` in the local-only configuration:
`None` when the path is absent. -/
def storeRead (st : Store) (p : String) : Option Content := lookupKey st p

/-- Models `storage.exists` in the local-only configuration. -/
def storeExists (st : Store) (p : String) : Bool := (storeRead st p).isSome

/-- Models `storage.list_files(pref)` in the local-only configuration: the
stored paths that start with the prefix, in store order (the listing order the
backends return is not guaranteed stable, which quantifying over `st` reflects). -/
def storeListFiles (st : Store) (pref : String) : List String :=
  (st.map Prod.fst).filter (fun p => pref.data.isPrefixOf p.data)

/-- Python truthiness of a read result: `None` and the empty string are falsy
(`json.dumps` of an object is never empty). Models `if not content:`. -/
def contentFalsy : Content → Bool
  | .raw s => s = ""
  | .obj _ => false

/-- Models `json.loads` restricted to success/failure: a `raw` text raises
`JSONDecodeError`, an `obj` text parses to its object. -/
def parseJson : Content → Option JObj
  | .raw _ => none
  | .obj o => some o

/-- Field lookup in a JSON object (Python `metadata.get(k)` / `metadata[k]`). -/
def jLookup (o : JObj) (k : String) : Option JVal := lookupKey o k

/-- Models `metadata.get(k, dflt)` for string-valued fields. -/
def jGetStr (o : JObj) (k : String) (dflt : String) : String :=
  match jLookup o k with
  | some (.jstr s) => s
  | _ => dflt

/-- Models `metadata.get(k, dflt)` for list-of-string fields. -/
def jGetArr (o : JObj) (k : String) (dflt : List String) : List String :=
  match jLookup o k with
  | some (.jarr xs) => xs
  | _ => dflt

/-- Models `metadata[k] = v` on a Python dict: an existing key keeps its
position, a new key is appended. -/
def jSetKey (o : JObj) (k : String) (v : JVal) : JObj := setKey o k v

/-! ## `domain_to_filename` (src/shared/scraper_saver.py, line 16) -/

/-- `domain.replace(".", "_")`: every `'.'` becomes `'_'`, all other
characters are unchanged. -/
def domain_to_filename (domain : String) : String :=
  String.mk (domain.data.map (fun c => if c = '.' then '_' else c))

/-! ## URL host extraction (model of `urllib.parse.urlparse(url).netloc`) -/

/-- A character allowed inside a URL scheme (`urllib.parse.scheme_chars`). -/
def isSchemeChar (c : Char) : Bool :=
  c.isAlpha || c.isDigit || c = '+' || c = '-' || c = '.'

/-- Strip a leading `scheme:` from the character list when the text before the
first `':'` is a nonempty valid scheme starting with a letter, as `urlsplit`
does; otherwise return the list unchanged. -/
def dropScheme (cs : List Char) : List Char :=
  match cs.dropWhile (fun c => c ≠ ':') with
  | ':' :: rest =>
    let sch := cs.takeWhile (fun c => c ≠ ':')
    if sch ≠ [] && (sch.headD ' ').isAlpha && sch.all isSchemeChar then rest else cs
  | _ => cs

/-- A character that terminates the netloc component (`'/'`, `'?'` or `'#'`). -/
def isNetlocEnd (c : Char) : Bool := c = '/' || c = '?' || c = '#'

/-- Models `urllib.parse.urlparse(url).netloc`: after stripping an optional
scheme, a netloc is present exactly when the remainder starts with `"//"`, and
extends to the next `'/'`, `'?'` or `'#'`. -/
def netloc (url : String) : String :=
  match dropScheme url.data with
  | '/' :: '/' :: rest => String.mk (rest.takeWhile (fun c => !isNetlocEnd c))
  | _ => ""

/-! ## `re.escape` and the saved URL pattern (src/shared/scraper_saver.py) -/

/-- The characters `re.escape` prefixes with a backslash (Python ≥ 3.7 escapes
exactly the regex special characters). -/
def reSpecialChars : List Char :=
  ['(', ')', '[', ']', '\x7b', '\x7d', '?', '*', '+', '-', '|', '^', '$',
   '\\', '.', '&', '~', '#', ' ', '\t', '\n', '\r', '\x0b', '\x0c']

/-- Models `re.escape`: special characters get a backslash, all others are
copied unchanged. -/
def reEscape (s : String) : String :=
  String.mk (s.data.foldr
    (fun c acc => (if c ∈ reSpecialChars then ['\\', c] else [c]) ++ acc) [])

/-- Semantics of `re.match` for the specific pattern `save_scraper` writes,
`"https?://" + re.escape(domain) + "/.*"`: `"https?"` matches `"http"` or
`"https"`, the escaped domain matches itself literally, and the trailing
`".*"` matches any (possibly empty) run of non-newline characters — and since
`re.match` only requires a match of a prefix of the subject, the `".*"`
imposes no constraint.  Hence the pattern matches `url` iff
`"http://" + domain + "/"` or `"https://" + domain + "/"` is a prefix of it. -/
def savedPatternMatches (domain url : String) : Bool :=
  ("http://" ++ domain ++ "/").data.isPrefixOf url.data
    || ("https://" ++ domain ++ "/").data.isPrefixOf url.data

/-! ## Artifact writer (`save_scraper`, src/shared/scraper_saver.py line 21) -/

/-- The return value of `save_scraper` (the Python function wraps the two
relative paths under the local repository root before returning; the logical
relative paths are what the storage tier keys on). -/
structure SaveResult where
  scraper_path : String
  metadata_path : String
  domain : String
deriving DecidableEq, Repr

/-- The metadata dict `save_scraper` builds.  `selectors` is the selector map
(a dict, modelled as an association list); `fields = list(selectors.keys())`.
`now` stands for `datetime.now().isoformat()` (taken twice in the source for
`created_at` and `last_validated`, within the same call). -/
def scraper_metadata (url : String) (selectors : List (String × String))
    (site_name : Option String) (scraper_type now : String) : JObj :=
  let domain := netloc url
  [("domain", .jstr domain),
   ("site_name", .jstr (site_name.getD domain)),
   ("scraper_type", .jstr scraper_type),
   ("url_pattern", .jstr ("https?://" ++ reEscape domain ++ "/.*")),
   ("example_url", .jstr url),
   ("fields", .jarr (selectors.map Prod.fst)),
   ("selectors", .jobj selectors),
   ("created_at", .jstr now),
   ("last_validated", .jstr now),
   ("version", .jstr "1.0")]

/-- Models `save_scraper` acting on the storage tier (local-only
configuration, where `save_content` is a map update whose boolean result the
Python caller ignores): writes the code blob, then the metadata object. -/
def save_scraper (st : Store) (code url : String)
    (selectors : List (String × String)) (site_name : Option String)
    (scraper_type now : String) : SaveResult × Store :=
  let domain := netloc url
  let base0 := domain_to_filename domain
  let base := if scraper_type = "list" || scraper_type = "content"
              then base0 ++ "_" ++ scraper_type else base0
  let scraper_rel := "scrapers/" ++ base ++ ".py"
  let metadata_rel := "metadata/" ++ base ++ ".json"
  let st1 := setKey st scraper_rel (.raw code)
  let st2 := setKey st1 metadata_rel
    (.obj (scraper_metadata url selectors site_name scraper_type now))
  ({ scraper_path := scraper_rel, metadata_path := metadata_rel,
     domain := domain }, st2)

/-- Models `update_scraper_validation` (src/shared/scraper_saver.py line 88):
read the metadata; when absent or empty, log a warning and write nothing; when
it fails to parse, the exception is caught and nothing is written; otherwise
set `last_validated` and rewrite the object. -/
def update_scraper_validation (st : Store) (domain now : String) : Store :=
  let metadata_rel := "metadata/" ++ domain_to_filename domain ++ ".json"
  match storeRead st metadata_rel with
  | none => st
  | some c =>
    if contentFalsy c then st
    else
      match parseJson c with
      | none => st
      | some o =>
        setKey st metadata_rel (.obj (jSetKey o "last_validated" (.jstr now)))

/-! ## Repository resolver (src/scraper_repository/__init__.py) -/

/-- The typed failures the resolver can raise.  In the source all of these are
Python exceptions; `notFound` is `FileNotFoundError("No scraper found for
domain: …")`, `notFoundUrl` is `FileNotFoundError("No scraper found for URL:
…")`, `incompletePipeline` is `FileNotFoundError("Incomplete pipeline for
domain: …")` — distinguishable by their messages — `keyError` models an
uncaught `KeyError`/type error on a missing or non-string metadata field, and
`corruptMetadata` models an uncaught `json.JSONDecodeError` escaping to the
caller, carrying the offending path. -/
inductive RepoError where
  | notFound : String → RepoError
  | notFoundUrl : String → RepoError
  | incompletePipeline : String → RepoError
  | keyError : String → RepoError
  | corruptMetadata : String → RepoError
deriving DecidableEq, Repr

/-- Models `get_scraper(domain)` up to module loading: the loaded module is
the stored code blob, byte for byte (the dynamic import executes exactly the
text `_ensure_file_available` fetched). -/
def get_scraper (st : Store) (domain : String) : Except RepoError Content :=
  let rel := "scrapers/" ++ domain_to_filename domain ++ ".py"
  match storeRead st rel with
  | none => .error (.notFound domain)
  | some c => .ok c

/-- Models `get_scraper_pipeline(domain)`: both halves must be available;
a `FileNotFoundError` from either fetch becomes the incomplete-pipeline
failure. -/
def get_scraper_pipeline (st : Store) (domain : String) :
    Except RepoError (Content × Content) :=
  let base := domain_to_filename domain
  match storeRead st ("scrapers/" ++ base ++ "_list.py"),
        storeRead st ("scrapers/" ++ base ++ "_content.py") with
  | some l, some c => .ok (l, c)
  | _, _ => .error (.incompletePipeline domain)

/-- Models `has_scraper_pipeline(domain)`: existence checks on the two code
paths only. -/
def has_scraper_pipeline (st : Store) (domain : String) : Bool :=
  let base := domain_to_filename domain
  storeExists st ("scrapers/" ++ base ++ "_list.py")
    && storeExists st ("scrapers/" ++ base ++ "_content.py")

/-- Suffix test `metadata_file_path.endswith('.json')`. -/
def endsWithJson (p : String) : Bool := ".json".data.isSuffixOf p.data

/-- The pattern-matching loop of `get_scraper_for_url` (lines 123-140),
parameterized by `reMatch pattern url`, the model of
`re.match(url_pattern, url) is not None` (the regex engine is Python library
code, not repository code).  Non-`.json` paths, unreadable or empty contents
and corrupt metadata are skipped; the first entry with a nonempty matching
`url_pattern` resolves through a final `get_scraper` on its `domain` field
(whose own failure propagates); a missing `domain` key would raise `KeyError`. -/
def patternScan (reMatch : String → String → Bool) (st : Store) (url : String) :
    List String → Except RepoError Content
  | [] => .error (.notFoundUrl url)
  | p :: rest =>
    if !endsWithJson p then patternScan reMatch st url rest
    else
      match storeRead st p with
      | none => patternScan reMatch st url rest
      | some c =>
        if contentFalsy c then patternScan reMatch st url rest
        else
          match parseJson c with
          | none => patternScan reMatch st url rest
          | some o =>
            let pat := jGetStr o "url_pattern" ""
            if pat ≠ "" && reMatch pat url then
              match jLookup o "domain" with
              | some (.jstr d) => get_scraper st d
              | _ => .error (.keyError "domain")
            else patternScan reMatch st url rest

/-- Models `get_scraper_for_url(url)`: exact-domain lookup first, then the
pattern scan over `storage.list_files("metadata/")`. -/
def get_scraper_for_url (reMatch : String → String → Bool) (st : Store)
    (url : String) : Except RepoError Content :=
  match get_scraper st (netloc url) with
  | .ok m => .ok m
  | .error _ => patternScan reMatch st url (storeListFiles st "metadata/")

/-- Spec-side description of one step of the pattern scan: the entry at path
`p` is a candidate match when it is a `.json` path whose stored content is
readable, nonempty, parses as a JSON object, and carries a nonempty
`url_pattern` matching the URL.  Used to state first-match-wins. -/
def matchEntry (reMatch : String → String → Bool) (st : Store) (url p : String) :
    Option JObj :=
  if !endsWithJson p then none
  else
    match storeRead st p with
    | none => none
    | some c =>
      if contentFalsy c then none
      else
        match parseJson c with
        | none => none
        | some o =>
          if jGetStr o "url_pattern" "" ≠ "" && reMatch (jGetStr o "url_pattern" "") url
          then some o else none

/-- Spec-side description of the scan: the first metadata entry in listing
order whose nonempty `url_pattern` matches the URL. -/
def firstPatternMatch (reMatch : String → String → Bool) (st : Store) (url : String)
    (files : List String) : Option JObj :=
  files.findSome? (matchEntry reMatch st url)

/-- The scan loop of `list_scrapers` (lines 155-165): parseable `.json`
entries are collected, everything else is skipped. -/
def scanScrapers (st : Store) : List String → List JObj
  | [] => []
  | p :: rest =>
    if !endsWithJson p then scanScrapers st rest
    else
      match storeRead st p with
      | none => scanScrapers st rest
      | some c =>
        if contentFalsy c then scanScrapers st rest
        else
          match parseJson c with
          | none => scanScrapers st rest
          | some o => o :: scanScrapers st rest

/-- Models `list_scrapers()`. -/
def list_scrapers (st : Store) : List JObj :=
  scanScrapers st (storeListFiles st "metadata/")

/-- One joined entry of `list_scraper_pipelines()`. -/
structure PipelineSummary where
  domain : String
  site_name : String
  list_example_url : String
  list_created_at : String
  content_example_url : String
  content_fields : List String
  content_created_at : String
deriving DecidableEq, Repr

/-- Build the joined summary dict from the `list`-typed metadata `o` and the
content-half metadata `co`. -/
def mkPipelineSummary (d : String) (o co : JObj) : PipelineSummary :=
  { domain := d,
    site_name := jGetStr o "site_name" d,
    list_example_url := jGetStr o "example_url" "",
    list_created_at := jGetStr o "created_at" "",
    content_example_url := jGetStr co "example_url" "",
    content_fields := jGetArr co "fields" [],
    content_created_at := jGetStr co "created_at" "" }

/-- The scan loop of `list_scraper_pipelines` (lines 218-259).  The main
parse is wrapped in a bare `except` (corrupt entries skipped), but the
secondary read of `metadata/<domain>_content.json` calls `json.loads` with no
guard (line 245): a truthy but unparseable content-half metadata raises
`JSONDecodeError`, which escapes the function — modelled by the `.error`
result. -/
def scanPipelines (st : Store) (seen : List String) :
    List String → Except RepoError (List PipelineSummary)
  | [] => .ok []
  | p :: rest =>
    if !endsWithJson p then scanPipelines st seen rest
    else
      match storeRead st p with
      | none => scanPipelines st seen rest
      | some c =>
        if contentFalsy c then scanPipelines st seen rest
        else
          match parseJson c with
          | none => scanPipelines st seen rest
          | some o =>
            let stype := jGetStr o "scraper_type" "single"
            let d := jGetStr o "domain" ""
            if stype = "list" && d ≠ "" && !(seen.contains d)
                && has_scraper_pipeline st d then
              let cpath := "metadata/" ++ domain_to_filename d ++ "_content.json"
              match storeRead st cpath with
              | none =>
                (scanPipelines st (d :: seen) rest).map
                  (fun l => mkPipelineSummary d o [] :: l)
              | some cc =>
                if contentFalsy cc then
                  (scanPipelines st (d :: seen) rest).map
                    (fun l => mkPipelineSummary d o [] :: l)
                else
                  match parseJson cc with
                  | none => .error (.corruptMetadata cpath)
                  | some co =>
                    (scanPipelines st (d :: seen) rest).map
                      (fun l => mkPipelineSummary d o co :: l)
            else scanPipelines st seen rest

/-- Models `list_scraper_pipelines()`. -/
def list_scraper_pipelines (st : Store) : Except RepoError (List PipelineSummary) :=
  scanPipelines st [] (storeListFiles st "metadata/")

/-! ## Execution sandbox (`execute_code`, src/shared/tools.py line 266) -/

/-- Models Python `code.split('\n')`. -/
def splitLinesAux : List Char → List Char → List String
  | [], acc => [String.mk acc.reverse]
  | c :: cs, acc =>
    if c = '\n' then String.mk acc.reverse :: splitLinesAux cs []
    else splitLinesAux cs (c :: acc)

/-- `code.split('\n')`: the lines of `code`, none containing `'\n'`. -/
def splitLines (s : String) : List String := splitLinesAux s.data []

/-- Substring containment on character lists (Python `needle in haystack`). -/
def infixChars (n : List Char) : List Char → Bool
  | [] => n.isEmpty
  | c :: cs => n.isPrefixOf (c :: cs) || infixChars n cs

/-- Models `"if __name__ ==" in line`. -/
def guardIn (l : String) : Bool := infixChars "if __name__ ==".data l.data

/-- Models `line.strip() == ""` for a line produced by `split('\n')`
(ASCII whitespace; such a line contains no `'\n'`). -/
def stripBlank (l : String) : Bool :=
  l.data.all (fun c =>
    c = ' ' || c = '\t' || c = '\r' || c = '\x0b' || c = '\x0c')

/-- Models `line and line[0] in (' ', '\t')`: the line is nonempty and starts
with a space or tab. -/
def firstIndent (l : String) : Bool :=
  match l.data with
  | c :: _ => c = ' ' || c = '\t'
  | [] => false

/-- The line-removal loop of `execute_code` (tools.py lines 287-305).  State
`skip` is `skip_main_block`: a line containing the guard text flips it on and
is dropped; while on, blank lines and indented lines are dropped; a nonblank
non-indented line flips it off and is kept. -/
def cleanGo : Bool → List String → List String
  | _, [] => []
  | skip, l :: ls =>
    if guardIn l then cleanGo true ls
    else if skip then
      if stripBlank l then cleanGo true ls
      else if !firstIndent l then l :: cleanGo false ls
      else cleanGo true ls
    else l :: cleanGo false ls

/-- `code_cleaned = '\n'.join(cleaned_code)`. -/
def clean_code (code : String) : String :=
  String.intercalate "\n" (cleanGo false (splitLines code))

/-- The harness `execute_code` appends after the cleaned code (the f-string
at tools.py lines 310-320), with `test_url` interpolated. -/
def harnessFor (test_url : String) : String :=
  "\n\n# Execute the scraper\nif __name__ == '__main__':\n    import json\n    try:\n        result = scrape('"
    ++ test_url
    ++ "')\n        print(json.dumps(result, indent=2, ensure_ascii=False))\n    except Exception as e:\n        print(f\"EXECUTION_ERROR: \x7bstr(e)\x7d\")\n"

/-- The full wrapped source `execute_code` writes to the temporary file. -/
def wrapped_code (code test_url : String) : String :=
  clean_code code ++ harnessFor test_url

/-- The observable outcome of the spawned subprocess: either it completed
with an exit code and captured streams, or the 30-second wall-clock limit
expired (`subprocess.TimeoutExpired`), with whatever partial output had been
produced by then. -/
inductive ProcOutcome where
  | completed : Int → String → String → ProcOutcome
  | timedOut : String → String → ProcOutcome
deriving DecidableEq, Repr

/-- The structured verdict `execute_code` returns: `success`, `output`,
`error`, and the optional `debug_info` key (absent on the timeout and
internal-exception paths of the Python dict). -/
structure Verdict where
  success : Bool
  output : String
  error : String
  debug_info : Option String
deriving DecidableEq, Repr

/-- The result classification of `execute_code` (tools.py lines 337-360) as a
function of the subprocess outcome.  On completion: failure iff the exit code
is nonzero or the marker `"EXECUTION_ERROR"` occurs in stdout, with
`error = stderr or "Code execution failed"`; success carries stdout and an
empty error.  On `TimeoutExpired`: a fixed verdict whose `output` is the empty
string — the partial output is not attached. -/
def execute_verdict : ProcOutcome → Verdict
  | .completed rc out err =>
    if rc ≠ 0 || infixChars "EXECUTION_ERROR".data out.data then
      { success := false, output := out,
        error := if err = "" then "Code execution failed" else err,
        debug_info := some ("STDOUT:\n" ++ out ++ "\n\nSTDERR:\n" ++ err) }
    else
      { success := true, output := out, error := "",
        debug_info := some ("STDOUT:\n" ++ out) }
  | .timedOut _ _ =>
    { success := false, output := "",
      error := "Code execution timed out (30s limit)", debug_info := none }

/-! ## Dual-tier `StorageManager.save_content` (src/shared/storage.py line 29) -/

/-- The two-tier storage state: `bucket` is `some` exactly when a GCS bucket
is configured, `localStore` is the always-present local cache. -/
structure DualStore where
  bucket : Option Store
  localStore : Store
deriving DecidableEq, Repr

/-- Models `StorageManager.save_content(path, content)`.  `localOk` and
`remoteOk` say whether the local write and the remote upload would throw.
Control flow of the source: the local write happens first; if it throws and
no bucket is configured, the call fails; when a bucket is configured, the
remote upload's outcome is returned (`True` on success, `False` on an
exception, which is logged); with no bucket, a successful local write
returns `True`. -/
def save_content (st : DualStore) (path : String) (c : Content)
    (localOk remoteOk : Bool) : Bool × DualStore :=
  let st1 := if localOk
    then { st with localStore := setKey st.localStore path c } else st
  if !localOk && st.bucket.isNone then (false, st1)
  else
    match st1.bucket with
    | some r =>
      if remoteOk then (true, { st1 with bucket := some (setKey r path c) })
      else (false, st1)
    | none => (true, st1)

/-! ## Helper lemmas -/

theorem lookupKey_setKey_self {α : Type} (l : List (String × α)) (k : String) (v : α) :
    lookupKey (setKey l k v) k = some v := by
  induction l with
  | nil => simp [setKey, lookupKey]
  | cons hd tl ih =>
    by_cases h : hd.1 = k
    · simp [setKey, h, lookupKey]
    · simp [setKey, h, lookupKey, ih]

theorem lookupKey_setKey_ne {α : Type} (l : List (String × α)) (k k' : String) (v : α)
    (h : k' ≠ k) : lookupKey (setKey l k v) k' = lookupKey l k' := by
  have hkk : ¬ (k = k') := fun hh => h hh.symm
  induction l with
  | nil => simp [setKey, lookupKey, hkk]
  | cons hd tl ih =>
    obtain ⟨k0, v0⟩ := hd
    by_cases hk : k0 = k
    · subst hk
      simp [setKey, lookupKey, hkk]
    · simp only [setKey, hk, if_false, lookupKey]
      by_cases hk' : k0 = k'
      · simp [hk']
      · simp [hk', ih]

/-- Re-setting the same key overwrites the earlier value. -/
theorem setKey_setKey_same {α : Type} (l : List (String × α)) (k : String) (v1 v2 : α) :
    setKey (setKey l k v1) k v2 = setKey l k v2 := by
  induction l with
  | nil => simp [setKey]
  | cons hd tl ih =>
    obtain ⟨k0, v0⟩ := hd
    by_cases hk : k0 = k
    · simp [setKey, hk]
    · simp [setKey, hk, ih]

/-- A path under `metadata/` is never a path under `scrapers/`. -/
theorem metadata_ne_scrapers (x y : String) :
    ("metadata/" ++ x : String) ≠ "scrapers/" ++ y := by
  intro h
  have h3 : 'm' :: ("etadata/".data ++ x.data) = 's' :: ("crapers/".data ++ y.data) :=
    congrArg String.data h
  simp at h3

theorem string_append_assoc (a b c : String) : (a ++ b) ++ c = a ++ (b ++ c) := by
  apply congrArg String.mk
  exact List.append_assoc a.data b.data c.data

/-- `domain.replace(".", "_")` distributes over appending a dot-free suffix. -/
theorem domain_to_filename_append (d s : String)
    (hs : s.data.map (fun c => if c = '.' then '_' else c) = s.data) :
    domain_to_filename (d ++ s) = domain_to_filename d ++ s := by
  show String.mk ((d.data ++ s.data).map _) = String.mk (d.data.map _ ++ s.data)
  rw [List.map_append, hs]

/-- Two strings with equal character lists are equal. -/
theorem string_data_ext {a b : String} (h : a.data = b.data) : a = b := by
  cases a
  cases b
  exact congrArg String.mk h

/-- The code path `get_scraper` computes for a suffixed domain equals the
path `has_scraper_pipeline`/`get_scraper_pipeline` compute for the base
domain, for a dot-free suffix. -/
theorem scraper_path_suffix (d sfx sfx2 : String)
    (hs : sfx.data.map (fun c => if c = '.' then '_' else c) = sfx.data)
    (hpy : sfx2 = sfx ++ ".py") :
    ("scrapers/" ++ domain_to_filename (d ++ sfx) ++ ".py" : String)
      = "scrapers/" ++ domain_to_filename d ++ sfx2 := by
  subst hpy
  rw [domain_to_filename_append d sfx hs]
  apply string_data_ext
  show ("scrapers/".data ++ ((domain_to_filename d).data ++ sfx.data)) ++ ".py".data
    = "scrapers/".data ++ ((domain_to_filename d).data ++ (sfx.data ++ ".py".data))
  simp [List.append_assoc]

/-- After a `"single"`-typed `save_scraper`, `get_scraper` on any domain with
the same filename key returns the saved code. -/
theorem get_scraper_save_single (st : Store) (code url : String)
    (selectors : List (String × String)) (site_name : Option String) (now : String)
    (d' : String) (hkey : domain_to_filename d' = domain_to_filename (netloc url)) :
    get_scraper (save_scraper st code url selectors site_name "single" now).2 d'
      = .ok (.raw code) := by
  have hne : ("metadata/" ++ domain_to_filename (netloc url) ++ ".json" : String)
      ≠ "scrapers/" ++ domain_to_filename (netloc url) ++ ".py" := by
    rw [string_append_assoc, string_append_assoc]
    exact metadata_ne_scrapers _ _
  simp only [save_scraper, get_scraper, storeRead]
  rw [hkey]
  rw [show (if ("single" = "list" || "single" = "content") = true
        then domain_to_filename (netloc url) ++ "_" ++ "single"
        else domain_to_filename (netloc url)) = domain_to_filename (netloc url) from rfl]
  rw [lookupKey_setKey_ne _ _ _ _ (fun h => hne h.symm)]
  rw [lookupKey_setKey_self]

/-- The pattern-scan loop is exactly first-match-wins: it resolves through
the first listing-order entry accepted by `matchEntry` and fails with the
URL-not-found error otherwise. -/
theorem patternScan_eq_firstMatch (reMatch : String → String → Bool) (st : Store)
    (url : String) (files : List String) :
    patternScan reMatch st url files
      = match firstPatternMatch reMatch st url files with
        | some o =>
          (match jLookup o "domain" with
           | some (.jstr dd) => get_scraper st dd
           | _ => .error (.keyError "domain"))
        | none => .error (.notFoundUrl url) := by
  induction files with
  | nil => rfl
  | cons p rest ih =>
    simp only [patternScan, firstPatternMatch, List.findSome?, matchEntry]
    by_cases h1 : (!endsWithJson p) = true
    · simp only [h1, if_true]
      exact ih
    · simp only [h1, if_false]
      cases hr : storeRead st p with
      | none => exact ih
      | some c =>
        by_cases h2 : contentFalsy c = true
        · simp only [h2, if_true]
          exact ih
        · simp only [h2, if_false]
          cases hp : parseJson c with
          | none => exact ih
          | some o =>
            by_cases h3 : (jGetStr o "url_pattern" "" ≠ ""
                && reMatch (jGetStr o "url_pattern" "") url) = true
            · rw [Bool.and_eq_true, decide_eq_true_iff] at h3
              simp [h3]
            · have h3' : ¬ (¬ jGetStr o "url_pattern" "" = ""
                  ∧ reMatch (jGetStr o "url_pattern" "") url = true) := by
                intro hcon
                exact h3 (by rw [Bool.and_eq_true, decide_eq_true_iff]; exact hcon)
              simp [h3', ih, firstPatternMatch]

theorem isPrefixOf_append_self (l r : List Char) : l.isPrefixOf (l ++ r) = true := by
  induction l with
  | nil => simp [List.isPrefixOf]
  | cons c cs ih => simp [List.isPrefixOf, ih]

theorem isPrefixOf_append_same (l m n : List Char) :
    (l ++ m).isPrefixOf (l ++ n) = m.isPrefixOf n := by
  induction l with
  | nil => rfl
  | cons c cs ih => simp [List.isPrefixOf, ih]

theorem isPrefixOf_append_cons (l : List Char) (a : Char) (r : List Char) :
    (l ++ a :: r).isPrefixOf l = false := by
  induction l with
  | nil => rfl
  | cons c cs ih => simp [List.isPrefixOf, ih]

theorem takeWhile_append_of_all {p : Char → Bool} (l m : List Char)
    (hl : ∀ c ∈ l, p c = true) :
    (l ++ m).takeWhile p = l ++ m.takeWhile p := by
  induction l with
  | nil => rfl
  | cons c cs ih =>
    have hc : p c = true := hl c (List.mem_cons_self c cs)
    simp [List.takeWhile, hc]
    exact ih (fun x hx => hl x (List.mem_cons_of_mem c hx))

theorem takeWhile_all {p : Char → Bool} (l : List Char) (hl : ∀ c ∈ l, p c = true) :
    l.takeWhile p = l := by
  induction l with
  | nil => rfl
  | cons c cs ih =>
    have hc : p c = true := hl c (List.mem_cons_self c cs)
    simp [List.takeWhile, hc]
    intro x hx
    exact hl x (List.mem_cons_of_mem c hx)

/-- The host of `https://<h>/<rest>` is `h`, for a host free of
netloc-terminating characters. -/
theorem netloc_https_slash (h rest : String) (hh : ∀ c ∈ h.data, isNetlocEnd c = false) :
    netloc ("https://" ++ h ++ "/" ++ rest) = h := by
  have e : netloc ("https://" ++ h ++ "/" ++ rest)
      = String.mk (((h.data ++ ['/']) ++ rest.data).takeWhile (fun c => !isNetlocEnd c)) := rfl
  rw [e, List.append_assoc]
  rw [takeWhile_append_of_all h.data (['/'] ++ rest.data) (fun c hc => by simp [hh c hc])]
  rw [show List.takeWhile (fun c => !isNetlocEnd c) (['/'] ++ rest.data) = [] from rfl]
  rw [List.append_nil]

/-- The host of `https://<h>` (no path at all) is also `h`. -/
theorem netloc_https_no_slash (h : String) (hh : ∀ c ∈ h.data, isNetlocEnd c = false) :
    netloc ("https://" ++ h) = h := by
  have e : netloc ("https://" ++ h)
      = String.mk (h.data.takeWhile (fun c => !isNetlocEnd c)) := rfl
  rw [e, takeWhile_all h.data (fun c hc => by simp [hh c hc])]

/-- The saved pattern for host `h` matches any `https://<h>/<rest>` URL. -/
theorem savedPatternMatches_slash (h rest : String) :
    savedPatternMatches h ("https://" ++ h ++ "/" ++ rest) = true := by
  have h2 : (("https://" ++ h ++ "/").data).isPrefixOf
      (("https://" ++ h ++ "/" ++ rest).data) = true := isPrefixOf_append_self _ _
  simp [savedPatternMatches, h2]

/-- The saved pattern for host `h` does NOT match `https://<h>` itself — the
pattern demands a `'/'` after the host which this URL lacks. -/
theorem savedPatternMatches_no_slash (h : String) :
    savedPatternMatches h ("https://" ++ h) = false := by
  have h1 : (("http://" ++ h ++ "/").data).isPrefixOf (("https://" ++ h).data) = false := rfl
  have h2 : (("https://" ++ h ++ "/").data).isPrefixOf (("https://" ++ h).data) = false := by
    have e1 : ("https://" ++ h ++ "/").data
        = "https://".data ++ (h.data ++ ['/']) := by
      show ("https://".data ++ h.data) ++ ['/'] = _
      rw [List.append_assoc]
    have e2 : ("https://" ++ h).data = "https://".data ++ h.data := rfl
    rw [e1, e2, isPrefixOf_append_same]
    exact isPrefixOf_append_cons h.data '/' []
  unfold savedPatternMatches
  rw [h1, h2]
  rfl

/-- A corrupt entry is skipped by the `list_scrapers` scan loop. -/
theorem scanScrapers_cons_corrupt (st : Store) (p s : String) (rest : List String)
    (h : storeRead st p = some (.raw s)) :
    scanScrapers st (p :: rest) = scanScrapers st rest := by
  simp only [scanScrapers, h]
  by_cases h1 : (!endsWithJson p) = true
  · simp [h1]
  · simp only [h1, if_false]
    by_cases h2 : contentFalsy (.raw s) = true
    · simp [h2]
    · simp [h2, parseJson]

/-- Removing a corrupt entry from the scanned listing does not change
`list_scrapers`' scan result. -/
theorem scanScrapers_filter_corrupt (st : Store) (p s : String)
    (h : storeRead st p = some (.raw s)) :
    ∀ files : List String,
      scanScrapers st (files.filter (fun q => q != p)) = scanScrapers st files := by
  intro files
  induction files with
  | nil => rfl
  | cons q rest ih =>
    by_cases hq : q = p
    · subst hq
      rw [List.filter_cons, if_neg (by simp), ih, scanScrapers_cons_corrupt st q s rest h]
    · rw [List.filter_cons, if_pos (by simp [hq])]
      simp only [scanScrapers]
      by_cases h1 : (!endsWithJson q) = true
      · simp [h1, ih]
      · simp only [h1, if_false]
        cases hrq : storeRead st q with
        | none => exact ih
        | some c =>
          by_cases h2 : contentFalsy c = true
          · simp [h2, ih]
          · simp only [h2, if_false]
            cases parseJson c with
            | none => exact ih
            | some o => rw [ih]

/-- A corrupt entry is skipped by the pattern-scan loop. -/
theorem patternScan_cons_corrupt (reMatch : String → String → Bool) (st : Store)
    (url p s : String) (rest : List String) (h : storeRead st p = some (.raw s)) :
    patternScan reMatch st url (p :: rest) = patternScan reMatch st url rest := by
  simp only [patternScan, h]
  by_cases h1 : (!endsWithJson p) = true
  · simp [h1]
  · simp only [h1, if_false]
    by_cases h2 : contentFalsy (.raw s) = true
    · simp [h2]
    · simp [h2, parseJson]

/-- Removing a corrupt entry from the scanned listing does not change the
pattern scan's result. -/
theorem patternScan_filter_corrupt (reMatch : String → String → Bool) (st : Store)
    (url p s : String) (h : storeRead st p = some (.raw s)) :
    ∀ files : List String,
      patternScan reMatch st url (files.filter (fun q => q != p))
        = patternScan reMatch st url files := by
  intro files
  induction files with
  | nil => rfl
  | cons q rest ih =>
    by_cases hq : q = p
    · subst hq
      rw [List.filter_cons, if_neg (by simp), ih,
        patternScan_cons_corrupt reMatch st url q s rest h]
    · rw [List.filter_cons, if_pos (by simp [hq])]
      simp only [patternScan]
      by_cases h1 : (!endsWithJson q) = true
      · simp [h1, ih]
      · simp only [h1, if_false]
        cases hrq : storeRead st q with
        | none => exact ih
        | some c =>
          by_cases h2 : contentFalsy c = true
          · simp [h2, ih]
          · simp only [h2, if_false]
            cases hp : parseJson c with
            | none => exact ih
            | some o =>
              by_cases h3 : (jGetStr o "url_pattern" "" ≠ ""
                  && reMatch (jGetStr o "url_pattern" "") url) = true
              · rw [Bool.and_eq_true, decide_eq_true_iff] at h3
                simp [h3]
              · have h3' : ¬ (¬ jGetStr o "url_pattern" "" = ""
                    ∧ reMatch (jGetStr o "url_pattern" "") url = true) := by
                  intro hcon
                  exact h3 (by rw [Bool.and_eq_true, decide_eq_true_iff]; exact hcon)
                simp [h3', ih]

/-- A corrupt entry is skipped as an element of the pipeline scan's listing
(its fatal effect comes only through the secondary content-half read). -/
theorem scanPipelines_cons_corrupt (st : Store) (seen : List String) (p s : String)
    (rest : List String) (h : storeRead st p = some (.raw s)) :
    scanPipelines st seen (p :: rest) = scanPipelines st seen rest := by
  simp only [scanPipelines, h]
  by_cases h1 : (!endsWithJson p) = true
  · simp [h1]
  · simp only [h1, if_false]
    by_cases h2 : contentFalsy (.raw s) = true
    · simp [h2]
    · simp [h2, parseJson]

/-- Removing a corrupt entry from the scanned listing does not change the
pipeline scan's result. -/
theorem scanPipelines_filter_corrupt (st : Store) (p s : String)
    (h : storeRead st p = some (.raw s)) :
    ∀ (files : List String) (seen : List String),
      scanPipelines st seen (files.filter (fun q => q != p))
        = scanPipelines st seen files := by
  intro files
  induction files with
  | nil => intro seen; rfl
  | cons q rest ih =>
    intro seen
    by_cases hq : q = p
    · subst hq
      rw [List.filter_cons, if_neg (by simp), ih seen,
        scanPipelines_cons_corrupt st seen q s rest h]
    · rw [List.filter_cons, if_pos (by simp [hq])]
      simp only [scanPipelines]
      by_cases h1 : (!endsWithJson q) = true
      · simp [h1, ih seen]
      · simp only [h1, if_false]
        cases hrq : storeRead st q with
        | none => exact ih seen
        | some c =>
          by_cases h2 : contentFalsy c = true
          · simp [h2, ih seen]
          · simp only [h2, if_false]
            cases hp2 : parseJson c with
            | none => exact ih seen
            | some o => simp [ih]

/-- In skip mode, a block of guard-bearing, blank or indented lines is
dropped entirely. -/
theorem cleanGo_block (block : List String)
    (hb : ∀ l ∈ block, stripBlank l = true ∨ firstIndent l = true) :
    cleanGo true block = [] := by
  induction block with
  | nil => rfl
  | cons l ls ih =>
    have ih' := ih (fun x hx => hb x (List.mem_cons_of_mem l hx))
    by_cases hg : guardIn l = true
    · simp [cleanGo, hg, ih']
    · rcases hb l (List.mem_cons_self l ls) with hbl | hbl
      · simp [cleanGo, hg, hbl, ih']
      · have hsb : stripBlank l = true ∨ stripBlank l = false := by
          cases stripBlank l <;> simp
        rcases hsb with hsb | hsb
        · simp [cleanGo, hg, hsb, ih']
        · simp [cleanGo, hg, hsb, hbl, ih']

/-- Appending a trailing guard line plus its blank-or-indented block changes
nothing in the cleaning loop's output, from any starting state. -/
theorem cleanGo_append (g : String) (block : List String)
    (hg : guardIn g = true)
    (hb : ∀ l ∈ block, stripBlank l = true ∨ firstIndent l = true) :
    ∀ (ls : List String) (skip : Bool),
      cleanGo skip (ls ++ g :: block) = cleanGo skip ls := by
  intro ls
  induction ls with
  | nil =>
    intro skip
    show cleanGo skip (g :: block) = []
    simp [cleanGo, hg, cleanGo_block block hb]
  | cons l ls ih =>
    intro skip
    simp only [List.cons_append, cleanGo]
    by_cases h1 : guardIn l = true
    · simp [h1, ih]
    · by_cases hskip : skip
      · subst hskip
        by_cases h2 : stripBlank l = true
        · simp [h1, h2, ih]
        · by_cases h3 : firstIndent l = true
          · simp [h1, h2, h3, ih]
          · simp [h1, h2, h3, ih]
      · simp at hskip
        subst hskip
        simp [h1, ih]

/-! ## Claim theorems -/

/-- C1: Round-trip persistence.  For every (code, url, selectors) input,
`save_scraper` with the default type `"single"` followed by `get_scraper` on
the url's domain loads exactly the code that was saved, byte for byte. -/
theorem save_scraper_get_scraper_roundtrip (st : Store) (code url : String)
    (selectors : List (String × String)) (site_name : Option String) (now : String) :
    get_scraper (save_scraper st code url selectors site_name "single" now).2 (netloc url)
      = .ok (.raw code) :=
  get_scraper_save_single st code url selectors site_name now (netloc url) rfl

/-- C10: The domain-to-key mapping replaces every `'.'` with `'_'` and
changes nothing else, so it is not injective: the distinct domains `"a.b"`
and `"a_b"` share the key `"a_b"`, `save_scraper` for one overwrites the
other's artifact, and `get_scraper` for either domain returns whichever code
was saved last. -/
theorem domain_key_collision :
    (∀ d : String, (domain_to_filename d).data
        = d.data.map (fun c => if c = '.' then '_' else c))
    ∧ domain_to_filename "a.b" = "a_b"
    ∧ domain_to_filename "a_b" = "a_b"
    ∧ ("a.b" : String) ≠ "a_b"
    ∧ (∀ (st : Store) (code1 code2 : String) (selectors : List (String × String))
        (site_name : Option String) (now : String),
        get_scraper
          (save_scraper (save_scraper st code1 "https://a.b/x" selectors site_name "single" now).2
            code2 "https://a_b/x" selectors site_name "single" now).2 "a.b" = .ok (.raw code2)
        ∧ get_scraper
          (save_scraper (save_scraper st code1 "https://a.b/x" selectors site_name "single" now).2
            code2 "https://a_b/x" selectors site_name "single" now).2 "a_b" = .ok (.raw code2)) :=
  ⟨fun _ => rfl, by decide, by decide, by decide,
   fun st code1 code2 selectors site_name now =>
    ⟨get_scraper_save_single _ code2 "https://a_b/x" selectors site_name now "a.b" (by decide),
     get_scraper_save_single _ code2 "https://a_b/x" selectors site_name now "a_b" (by decide)⟩⟩

/-- C2 counterexample: with a remote backend configured (`bucket = some []`)
and a successful local write (`localOk = true`), a failing remote write
(`remoteOk = false`) makes `save_content` return failure — the claim that the
call still reports success is false at this input. -/
theorem save_content_remote_failure_not_success :
    ¬ ((save_content ⟨some [], []⟩ "scrapers/example_com.py" (.raw "code") true false).1
        = true) := by
  decide

/-- C2 (amended): `save_content`'s boolean result is the remote write's
outcome whenever a remote backend is configured — a remote failure is logged
and returned as failure even when the local write succeeded, while a local
failure is the one tolerated when a remote backend exists; with no remote
backend the result is the local write's outcome. -/
theorem save_content_result (st : DualStore) (path : String) (c : Content)
    (localOk remoteOk : Bool) :
    (save_content st path c localOk remoteOk).1
      = (if st.bucket.isSome then remoteOk else localOk) := by
  obtain ⟨b, l⟩ := st
  cases b <;> cases localOk <;> cases remoteOk <;> rfl

/-- C3 counterexample: on a timeout, the verdict's `output` is the empty
string, not the partial stdout `"partial output"` produced before the
deadline — the claim that partial output is still attached to the verdict is
false at this input. -/
theorem execute_timeout_discards_output :
    (execute_verdict (.timedOut "partial output" "late stderr")).output = ""
    ∧ ¬ ((execute_verdict (.timedOut "partial output" "late stderr")).output
          = "partial output") :=
  ⟨rfl, by decide⟩

/-- C3 (amended): for every completed (non-timed-out) process the verdict
carries the captured stdout as `output`, and its `error` is the captured
stderr on the failure path (with a fixed default when stderr is empty) and
empty on the success path; on timeout the verdict is the fixed record with
empty `output` and the timeout message — partial output is discarded from the
verdict entirely. -/
theorem execute_verdict_streams (rc : Int) (outp err po pe : String) :
    (execute_verdict (.completed rc outp err)).output = outp
    ∧ (execute_verdict (.completed rc outp err)).error
        = (if (execute_verdict (.completed rc outp err)).success then ""
           else if err = "" then "Code execution failed" else err)
    ∧ execute_verdict (.timedOut po pe)
        = { success := false, output := "",
            error := "Code execution timed out (30s limit)", debug_info := none } := by
  refine ⟨?_, ?_, rfl⟩ <;> simp only [execute_verdict] <;> split <;> simp

/-- Unfolding equation for `update_scraper_validation`. -/
theorem update_scraper_validation_eq (st : Store) (d now : String) :
    update_scraper_validation st d now
      = match storeRead st ("metadata/" ++ domain_to_filename d ++ ".json") with
        | none => st
        | some c =>
          if contentFalsy c = true then st
          else match parseJson c with
            | none => st
            | some o => setKey st ("metadata/" ++ domain_to_filename d ++ ".json")
                (Content.obj (jSetKey o "last_validated" (JVal.jstr now))) := rfl

/-- C9: `update_scraper_validation` rewrites the metadata object with only
the `last_validated` field changed: every other field keeps its value (and a
second call in succession still differs from the original object only at
`last_validated`), no other stored path is touched, and when the metadata is
absent nothing at all is written. -/
theorem touch_validation_frame (st : Store) (d now1 now2 : String) (o : JObj)
    (h : storeRead st ("metadata/" ++ domain_to_filename d ++ ".json") = some (.obj o)) :
    storeRead (update_scraper_validation st d now1)
        ("metadata/" ++ domain_to_filename d ++ ".json")
      = some (.obj (jSetKey o "last_validated" (.jstr now1)))
    ∧ (∀ k, k ≠ "last_validated" →
        jLookup (jSetKey o "last_validated" (.jstr now1)) k = jLookup o k)
    ∧ jLookup (jSetKey o "last_validated" (.jstr now1)) "last_validated"
        = some (.jstr now1)
    ∧ (∀ p, p ≠ "metadata/" ++ domain_to_filename d ++ ".json" →
        storeRead (update_scraper_validation st d now1) p = storeRead st p)
    ∧ storeRead (update_scraper_validation (update_scraper_validation st d now1) d now2)
        ("metadata/" ++ domain_to_filename d ++ ".json")
      = some (.obj (jSetKey o "last_validated" (.jstr now2)))
    ∧ (∀ k, k ≠ "last_validated" →
        jLookup (jSetKey o "last_validated" (.jstr now2)) k = jLookup o k)
    ∧ (∀ (st' : Store) (d' : String),
        storeRead st' ("metadata/" ++ domain_to_filename d' ++ ".json") = none →
        update_scraper_validation st' d' now1 = st') := by
  have hstep : update_scraper_validation st d now1
      = setKey st ("metadata/" ++ domain_to_filename d ++ ".json")
          (.obj (jSetKey o "last_validated" (.jstr now1))) := by
    rw [update_scraper_validation_eq, h]
    rfl
  have h2 : storeRead (update_scraper_validation st d now1)
      ("metadata/" ++ domain_to_filename d ++ ".json")
      = some (.obj (jSetKey o "last_validated" (.jstr now1))) := by
    rw [hstep]
    exact lookupKey_setKey_self _ _ _
  have hstep2 : update_scraper_validation (update_scraper_validation st d now1) d now2
      = setKey (update_scraper_validation st d now1)
          ("metadata/" ++ domain_to_filename d ++ ".json")
          (.obj (jSetKey (jSetKey o "last_validated" (.jstr now1)) "last_validated"
            (.jstr now2))) := by
    rw [update_scraper_validation_eq, h2]
    rfl
  refine ⟨h2, ?_, lookupKey_setKey_self _ _ _, ?_, ?_, ?_, ?_⟩
  · intro k hk
    exact lookupKey_setKey_ne _ _ _ _ hk
  · intro p hp
    rw [hstep]
    exact lookupKey_setKey_ne _ _ _ _ hp
  · rw [hstep2]
    have hcoll : jSetKey (jSetKey o "last_validated" (.jstr now1)) "last_validated"
        (.jstr now2) = jSetKey o "last_validated" (.jstr now2) :=
      setKey_setKey_same o _ _ _
    rw [hcoll]
    exact lookupKey_setKey_self _ _ _
  · intro k hk
    exact lookupKey_setKey_ne _ _ _ _ hk
  · intro st' d' h'
    rw [update_scraper_validation_eq, h']

/-- C4: Pipeline all-or-nothing.  `has_scraper_pipeline d` is true iff
`get_scraper` succeeds on both `d ++ "_list"` and `d ++ "_content"` (the two
halves' artifacts exist); when at least one half is missing,
`get_scraper_pipeline d` fails with the incomplete-pipeline error — a failure
distinct from both not-found failures, and never a partial pair. -/
theorem pipeline_all_or_nothing (st : Store) (d : String) :
    (has_scraper_pipeline st d = true ↔
      ((∃ c, get_scraper st (d ++ "_list") = .ok c)
        ∧ (∃ c, get_scraper st (d ++ "_content") = .ok c)))
    ∧ ((storeRead st ("scrapers/" ++ domain_to_filename d ++ "_list.py") = none
        ∨ storeRead st ("scrapers/" ++ domain_to_filename d ++ "_content.py") = none)
       → get_scraper_pipeline st d = .error (.incompletePipeline d))
    ∧ (∀ d', RepoError.incompletePipeline d ≠ RepoError.notFound d'
        ∧ RepoError.incompletePipeline d ≠ RepoError.notFoundUrl d') := by
  have hl : ("scrapers/" ++ domain_to_filename (d ++ "_list") ++ ".py" : String)
      = "scrapers/" ++ domain_to_filename d ++ "_list.py" :=
    scraper_path_suffix d "_list" "_list.py" (by decide) (by decide)
  have hc : ("scrapers/" ++ domain_to_filename (d ++ "_content") ++ ".py" : String)
      = "scrapers/" ++ domain_to_filename d ++ "_content.py" :=
    scraper_path_suffix d "_content" "_content.py" (by decide) (by decide)
  refine ⟨?_, ?_, fun d' => ⟨by simp, by simp⟩⟩
  · simp only [has_scraper_pipeline, storeExists, get_scraper, hl, hc, Bool.and_eq_true,
      Option.isSome_iff_exists]
    constructor
    · rintro ⟨⟨c1, h1⟩, ⟨c2, h2⟩⟩
      rw [h1, h2]
      exact ⟨⟨c1, rfl⟩, ⟨c2, rfl⟩⟩
    · rintro ⟨⟨c1, h1⟩, ⟨c2, h2⟩⟩
      constructor
      · cases hx : storeRead st ("scrapers/" ++ domain_to_filename d ++ "_list.py") with
        | none => rw [hx] at h1; cases h1
        | some c => exact ⟨c, rfl⟩
      · cases hx : storeRead st ("scrapers/" ++ domain_to_filename d ++ "_content.py") with
        | none => rw [hx] at h2; cases h2
        | some c => exact ⟨c, rfl⟩
  · intro h
    simp only [get_scraper_pipeline]
    rcases h with h | h
    · rw [h]
    · rw [h]
      cases storeRead st ("scrapers/" ++ domain_to_filename d ++ "_list.py") <;> rfl

/-- Witness for C4 at a concrete store holding only the list half: the
content path is absent and the pipeline lookup fails with the
incomplete-pipeline error. -/
theorem pipeline_all_or_nothing_witness :
    storeRead [("scrapers/example_com_list.py", Content.raw "L")]
        ("scrapers/" ++ domain_to_filename "example.com" ++ "_content.py") = none
    ∧ get_scraper_pipeline [("scrapers/example_com_list.py", Content.raw "L")]
        "example.com" = .error (.incompletePipeline "example.com") :=
  ⟨rfl, (pipeline_all_or_nothing [("scrapers/example_com_list.py", Content.raw "L")]
    "example.com").2.1 (Or.inr rfl)⟩

/-- C5: Pattern-fallback resolution.  For every URL whose host has no saved
artifact (the exact-domain lookup misses), `get_scraper_for_url` scans the
listed metadata entries and the first one in listing order whose nonempty
`url_pattern` matches (`firstPatternMatch`) determines the domain for the
final `get_scraper` call; with no match it fails with the URL-not-found
error.  `reMatch` abstracts `re.match(pattern, url) is not None` (Python
standard-library code, not repository code). -/
theorem get_scraper_for_url_pattern_fallback (reMatch : String → String → Bool)
    (st : Store) (url : String)
    (h : storeRead st ("scrapers/" ++ domain_to_filename (netloc url) ++ ".py") = none) :
    get_scraper_for_url reMatch st url
      = match firstPatternMatch reMatch st url (storeListFiles st "metadata/") with
        | some o =>
          (match jLookup o "domain" with
           | some (.jstr dd) => get_scraper st dd
           | _ => .error (.keyError "domain"))
        | none => .error (.notFoundUrl url) := by
  simp only [get_scraper_for_url, get_scraper, h]
  exact patternScan_eq_firstMatch reMatch st url _

/-- Witness for C5 at a concrete store: the host `x.y` has no artifact, the
single metadata entry's pattern matches, and resolution lands on that
entry's domain `d`, returning its stored code. -/
theorem get_scraper_for_url_pattern_fallback_witness :
    storeRead [("metadata/site.json",
          Content.obj [("url_pattern", .jstr "P"), ("domain", .jstr "d")]),
        ("scrapers/d.py", Content.raw "CODE")]
      ("scrapers/" ++ domain_to_filename (netloc "https://x.y/z") ++ ".py") = none
    ∧ get_scraper_for_url (fun _ _ => true)
        [("metadata/site.json",
          Content.obj [("url_pattern", .jstr "P"), ("domain", .jstr "d")]),
         ("scrapers/d.py", Content.raw "CODE")] "https://x.y/z"
      = .ok (.raw "CODE") := by
  refine ⟨rfl, ?_⟩
  rw [get_scraper_for_url_pattern_fallback (fun _ _ => true)
    [("metadata/site.json",
      Content.obj [("url_pattern", .jstr "P"), ("domain", .jstr "d")]),
     ("scrapers/d.py", Content.raw "CODE")] "https://x.y/z" rfl]
  rfl

/-- C6 counterexample: a corrupt stored metadata object CAN be fatal to a
bulk scan.  With a complete pipeline for `example.com`, a `list`-typed
metadata record, and a corrupt `metadata/example_com_content.json`,
`list_scraper_pipelines` hits the unguarded `json.loads` of the content-half
metadata (repository `__init__.py` line 245) and the decode error escapes,
instead of the entry being skipped. -/
theorem list_scraper_pipelines_corrupt_fatal :
    list_scraper_pipelines
      [("metadata/example_com_list.json",
        .obj [("scraper_type", .jstr "list"), ("domain", .jstr "example.com")]),
       ("metadata/example_com_content.json", .raw "garbage"),
       ("scrapers/example_com_list.py", .raw "L"),
       ("scrapers/example_com_content.py", .raw "C")]
      = .error (.corruptMetadata "metadata/example_com_content.json") := rfl

/-- C6 (amended): a corrupt entry is logged and skipped as a scanned element
by all three bulk-scan loops — removing it from the scanned listing changes
none of their results — and it is never fatal to `list_scrapers` or to the
pattern scan of `get_scraper_for_url`; `list_scraper_pipelines`, however, can
still fail on a corrupt content-half metadata object through its unguarded
secondary `json.loads` (see the counterexample). -/
theorem corrupt_metadata_skipped_in_scans (reMatch : String → String → Bool)
    (st : Store) (files seen : List String) (p s url : String)
    (h : storeRead st p = some (.raw s)) :
    scanScrapers st (files.filter (fun q => q != p)) = scanScrapers st files
    ∧ patternScan reMatch st url (files.filter (fun q => q != p))
        = patternScan reMatch st url files
    ∧ scanPipelines st seen (files.filter (fun q => q != p))
        = scanPipelines st seen files :=
  ⟨scanScrapers_filter_corrupt st p s h files,
   patternScan_filter_corrupt reMatch st url p s h files,
   scanPipelines_filter_corrupt st p s h files seen⟩

/-- Witness for C6's amended statement at a concrete store with one corrupt
and one good metadata entry. -/
theorem corrupt_metadata_skipped_in_scans_witness :
    scanScrapers
        [("metadata/corrupt.json", Content.raw "oops"),
         ("metadata/good.json", Content.obj [("domain", .jstr "g")])]
        (["metadata/corrupt.json", "metadata/good.json"].filter
          (fun q => q != "metadata/corrupt.json"))
      = scanScrapers
        [("metadata/corrupt.json", Content.raw "oops"),
         ("metadata/good.json", Content.obj [("domain", .jstr "g")])]
        ["metadata/corrupt.json", "metadata/good.json"] :=
  (corrupt_metadata_skipped_in_scans (fun _ _ => false)
    [("metadata/corrupt.json", Content.raw "oops"),
     ("metadata/good.json", Content.obj [("domain", .jstr "g")])]
    ["metadata/corrupt.json", "metadata/good.json"] []
    "metadata/corrupt.json" "oops" "https://u/" rfl).1

/-- C7 counterexample: for the example URL `https://example.org` (an http(s)
URL with no path), the metadata written by `save_scraper` has the right
domain and pattern text, but the pattern — which requires a `'/'` after the
host — does not match the example URL it was written with
(`re.match("https?://example\.org/.*", "https://example.org")` is `None`,
per the prefix-matching semantics `savedPatternMatches` captures). -/
theorem metadata_pattern_counterexample :
    jGetStr (scraper_metadata "https://example.org" [] none "single" "T") "domain" ""
      = "example.org"
    ∧ jGetStr (scraper_metadata "https://example.org" [] none "single" "T") "example_url" ""
      = "https://example.org"
    ∧ jGetStr (scraper_metadata "https://example.org" [] none "single" "T") "url_pattern" ""
      = "https?://example\\.org/.*"
    ∧ savedPatternMatches "example.org" "https://example.org" = false :=
  ⟨by decide, by decide, by decide, by decide⟩

/-- C7 (amended): in every metadata record written by `save_scraper`, the
stored `domain` is the host of the `example_url` and the stored `url_pattern`
is the escaped-host regex; that pattern matches the example URL exactly when
the URL has a `'/'` after the host — it matches every `https://<host>/<path>`
URL but fails for `https://<host>` with no path (whose host `netloc` still
extracts correctly). -/
theorem metadata_invariant_amended (selectors : List (String × String))
    (site_name : Option String) (stype now h rest : String)
    (hh : ∀ c ∈ h.data, isNetlocEnd c = false) :
    (∀ url : String,
      jGetStr (scraper_metadata url selectors site_name stype now) "domain" "" = netloc url
      ∧ jGetStr (scraper_metadata url selectors site_name stype now) "url_pattern" ""
          = "https?://" ++ reEscape (netloc url) ++ "/.*"
      ∧ jGetStr (scraper_metadata url selectors site_name stype now) "example_url" "" = url)
    ∧ netloc ("https://" ++ h ++ "/" ++ rest) = h
    ∧ savedPatternMatches h ("https://" ++ h ++ "/" ++ rest) = true
    ∧ netloc ("https://" ++ h) = h
    ∧ savedPatternMatches h ("https://" ++ h) = false :=
  ⟨fun _ => ⟨rfl, rfl, rfl⟩,
   netloc_https_slash h rest hh,
   savedPatternMatches_slash h rest,
   netloc_https_no_slash h hh,
   savedPatternMatches_no_slash h⟩

/-- Witness for C7's amended statement at the concrete host `example.org`. -/
theorem metadata_invariant_amended_witness :
    (∀ c ∈ ("example.org" : String).data, isNetlocEnd c = false)
    ∧ netloc ("https://" ++ "example.org" ++ "/" ++ "a") = "example.org"
    ∧ savedPatternMatches "example.org" ("https://" ++ "example.org" ++ "/" ++ "a") = true
    ∧ savedPatternMatches "example.org" ("https://" ++ "example.org") = false :=
  ⟨by decide,
   (metadata_invariant_amended [] none "single" "T" "example.org" "a" (by decide)).2.1,
   (metadata_invariant_amended [] none "single" "T" "example.org" "a" (by decide)).2.2.1,
   (metadata_invariant_amended [] none "single" "T" "example.org" "a" (by decide)).2.2.2.2⟩

/-- C8: Self-invocation stripping equivalence.  For any pair of code strings
that are identical except that one has a trailing self-invocation guard block
appended (a line containing the guard text, followed only by blank or
indented lines), `execute_code` produces identical wrapped code for both —
and hence identical serialized output, since the subprocess runs exactly the
wrapped text. -/
theorem execute_strip_self_invocation (code code2 guard url : String)
    (block : List String)
    (hg : guardIn guard = true)
    (hb : ∀ l ∈ block, stripBlank l = true ∨ firstIndent l = true)
    (hsplit : splitLines code2 = splitLines code ++ guard :: block) :
    wrapped_code code2 url = wrapped_code code url := by
  unfold wrapped_code clean_code
  rw [hsplit, cleanGo_append guard block hg hb (splitLines code) false]

/-- Witness for C8 on a concrete scraper with and without a trailing
`if __name__ == '__main__':` block. -/
theorem execute_strip_self_invocation_witness :
    wrapped_code
        "def scrape(url):\n    return 0\nif __name__ == '__main__':\n    scrape('x')"
        "https://t/"
      = wrapped_code "def scrape(url):\n    return 0" "https://t/" :=
  execute_strip_self_invocation
    "def scrape(url):\n    return 0"
    "def scrape(url):\n    return 0\nif __name__ == '__main__':\n    scrape('x')"
    "if __name__ == '__main__':" "https://t/" ["    scrape('x')"]
    (by decide) (by decide) (by decide)

/-- Witness for C9 at a concrete store: the rewritten object has the new
`last_validated` value and an unchanged `domain`. -/
theorem touch_validation_frame_witness :
    storeRead (update_scraper_validation
        [("metadata/e_com.json",
          Content.obj [("domain", .jstr "e.com"), ("last_validated", .jstr "T0")])]
        "e.com" "T1") "metadata/e_com.json"
      = some (.obj [("domain", .jstr "e.com"), ("last_validated", .jstr "T1")]) :=
  (touch_validation_frame
    [("metadata/e_com.json",
      Content.obj [("domain", .jstr "e.com"), ("last_validated", .jstr "T0")])]
    "e.com" "T1" "T2" [("domain", .jstr "e.com"), ("last_validated", .jstr "T0")] rfl).1

end Autoscraper
